import Mathlib

/-!
Verification of the BWM-ILP scheduling pipeline
(`app/services/bwm_ilp.py`).

The Python module is shallowly embedded: the frozen dataclasses become
structures, Python dicts become association lists with last-write-wins
lookup, floats become rationals, and the solver is an external oracle
supplying a status and a 0/1 valuation of the `w`/`x` decision
variables.  The effectful tail of `run_bwm_ilp` (delete previous
schedule rows, add new rows, commit) is modelled by explicit passing of
a `Session` state holding the committed rows and the transaction's
working view; `commit` publishes the working view.
-/

namespace BwmIlp

/-- Lookup in an association list that models a Python dict built by
repeated key assignment: a later binding overwrites an earlier one. -/
def lookupD {α β : Type} [DecidableEq α] (l : List (α × β)) (k : α) : Option β :=
  l.foldl (fun acc kv => if kv.1 = k then some kv.2 else acc) none

/-- Mirror of dataclass `ClassInfo` (bwm_ilp.py lines 28-40).
`capacity` is the effective capacity: enrollment student count when an
enrollment row exists, else `class_capacity` (lines 211-213); DB columns
are signed integers. -/
structure ClassInfo where
  class_id : Nat
  course_id : Nat
  course_code : String
  course_name : String
  cohort_id : String
  capacity : Int
  session_type : String
  requires_lab : Bool
  needs_back_to_back : Bool
  same_room_preferred : Bool
  candidate_lecturers : List Nat
deriving DecidableEq

/-- Mirror of dataclass `RoomInfo` (lines 43-50); `equipment` is the
per-room dict `equipment_key → quantity` built at lines 180-182. -/
structure RoomInfo where
  room_id : Nat
  room_code : String
  capacity : Int
  room_type : String
  building : String
  equipment : List (String × Int)
deriving DecidableEq

/-- Mirror of dataclass `TimeslotInfo` (lines 53-59); start/end times are
opaque payloads, modelled as naturals. -/
structure TimeslotInfo where
  timeslot_id : Nat
  day : String
  start_time : Nat
  end_time : Nat
  is_peak : Bool
deriving DecidableEq

/-- Mirror of dataclass `LecturerInfo` (lines 62-66). -/
structure LecturerInfo where
  lecturer_id : Nat
  lecturer_code : String
  name : String
deriving DecidableEq

/-- Mirror of ORM model `CourseEquipmentRequirement`
(models/scheduling.py lines 171-191): `session_type` is non-nullable
(blank string means "any"), `min_quantity` is nullable. -/
structure CourseEquipmentRequirement where
  course_id : Nat
  session_type : String
  requirement_key : String
  min_quantity : Option Int
  required_flag : Bool
  preferred_flag : Bool
deriving DecidableEq

/-- Mirror of dataclass `AssignmentResult` (lines 69-85); the breakdown
dict is an insertion-ordered association list. -/
structure AssignmentResult where
  class_id : Nat
  course_code : String
  course_name : String
  cohort_id : String
  lecturer : String
  lecturer_code : String
  room_code : String
  room_id : Nat
  building : String
  timeslot_id : Nat
  day : String
  start_time : Nat
  end_time : Nat
  penalty : ℚ
  penalty_breakdown : List (String × ℚ)
deriving DecidableEq

/-- Mirror of dataclass `BwmIlpResult` (lines 88-97).  `execution_time`
is wall-clock time, which the embedding does not model (always 0). -/
structure BwmIlpResult where
  dataset_id : Nat
  dataset_name : String
  objective_value : ℚ
  soft_constraint_totals : List (String × ℚ)
  assignments : List AssignmentResult
  solver_status : String
  status : String
  execution_time : ℚ
deriving DecidableEq

/-- Mirror of ORM model `ScheduleEntry` (the only table the pipeline
writes; models/scheduling.py lines 255-269). -/
structure ScheduleEntry where
  dataset_id : Nat
  class_id : Nat
  lecturer_id : Nat
  room_id : Nat
  timeslot_id : Nat
  status : String
  penalty : ℚ
deriving DecidableEq

/-- The in-memory dataset bundle `run_bwm_ilp` assembles before building
the model (lines 107-249).  `availability` carries the boolean computed
at line 190 (`status.lower() == "available"`); `weights` is the
`PenaltyWeight` table restricted to this dataset; `requirements` the
`CourseEquipmentRequirement` rows. -/
structure Problem where
  dataset_id : Nat
  dataset_name : String
  classes : List ClassInfo
  rooms : List RoomInfo
  timeslots : List TimeslotInfo
  lecturers : List LecturerInfo
  availability : List ((Nat × Nat) × Bool)
  preferences : List ((Nat × Nat) × ℚ)
  weights : List (String × ℚ)
  requirements : List CourseEquipmentRequirement

/-- `availability_map.get((lecturer, timeslot), False)` (line 298). -/
def availB (p : Problem) (l t : Nat) : Bool :=
  (lookupD p.availability (l, t)).getD false

/-- `preference_map.get((lecturer, timeslot), 0.0)` (lines 376, 411). -/
def prefScore (p : Problem) (l t : Nat) : ℚ :=
  (lookupD p.preferences (l, t)).getD 0

/-- `weight_map[key]` after the `setdefault(key, 0.0)` loop
(lines 164-166). -/
def weightOf (p : Problem) (k : String) : ℚ :=
  (lookupD p.weights k).getD 0

/-- Python `req.min_quantity or 1`: `None` and `0` are falsy. -/
def minQty (o : Option Int) : Int :=
  match o with
  | none => 1
  | some v => if v = 0 then 1 else v

/-- `course_requirements.get(course_id, [])` (lines 184-186, 275). -/
def courseReqs (reqs : List CourseEquipmentRequirement) (cid : Nat) :
    List CourseEquipmentRequirement :=
  reqs.filter (fun r => r.course_id = cid)

/-- Mirror of the closure `_room_compatible` (lines 259-284): capacity
check, lab-room discipline, the early `return True` for a non-lab class
in a lab-typed room, then the required-equipment scan. -/
def room_compatible (reqs : List CourseEquipmentRequirement)
    (c : ClassInfo) (r : RoomInfo) : Bool :=
  if r.capacity < c.capacity then false
  else if c.requires_lab &&
      !(r.room_type.toLower = "lab" || r.room_type.toLower = "hybrid") then false
  else if !c.requires_lab && r.room_type.toLower = "lab" &&
      !(c.session_type = "lab") then true
  else
    (courseReqs reqs c.course_id).all (fun req =>
      if !req.session_type.isEmpty &&
          !(req.session_type.toLower = c.session_type.toLower) then true
      else !(req.required_flag &&
        (lookupD r.equipment req.requirement_key).getD 0 < minQty req.min_quantity))

/-- The room-candidate list `room_candidates[class_id]` (line 291): ids
of the rooms, in table order, passing `_room_compatible`. -/
def roomCandIds (p : Problem) (c : ClassInfo) : List Nat :=
  (p.rooms.filter (fun r => room_compatible p.requirements c r)).map (fun r => r.room_id)

/-- The timeslot-candidate set `class_timeslot_candidates[class_id]`
(lines 296-301): timeslots for which some candidate lecturer is
available.  The Python set is modelled as a list in table order;
only membership is ever relevant. -/
def tsCandIds (p : Problem) (c : ClassInfo) : List Nat :=
  (p.timeslots.filter (fun ts =>
    c.candidate_lecturers.any (fun l => availB p l ts.timeslot_id))).map
    (fun ts => ts.timeslot_id)

/-- `(class_id, t, l) ∈ w_vars` (variable created at lines 296-301):
the lecturer is a candidate, the timeslot exists, and the pair is
available. -/
def wDef (p : Problem) (c : ClassInfo) (t l : Nat) : Bool :=
  c.candidate_lecturers.contains l && availB p l t &&
    p.timeslots.any (fun ts => ts.timeslot_id = t)

/-- `(class_id, t, r) ∈ x_vars` (variables created at lines 309-313). -/
def xDef (p : Problem) (c : ClassInfo) (t r : Nat) : Bool :=
  (tsCandIds p c).contains t && (roomCandIds p c).contains r

/-- Enumeration of the `(t, l)` index pairs of class `c`'s `w`
variables, grouped by timeslot — the index set of the H1 sum
(lines 320-324). -/
def wPairs (p : Problem) (c : ClassInfo) : List (Nat × Nat) :=
  (tsCandIds p c).flatMap (fun t =>
    (c.candidate_lecturers.filter (fun l => availB p l t)).map (fun l => (t, l)))

/-- Enumeration of the `(t, r)` index pairs of class `c`'s `x`
variables (lines 309-313). -/
def xPairs (p : Problem) (c : ClassInfo) : List (Nat × Nat) :=
  (tsCandIds p c).flatMap (fun t =>
    (roomCandIds p c).map (fun r => (t, r)))

/-!  A 0/1 valuation of the decision variables is a pair of boolean
functions `vw vx : class_id → timeslot_id → (lecturer|room) id → Bool`
(`solution_value() > 0.5` on an integral variable).  The four hard
constraint families of lines 315-358, stated over such valuations. -/

/-- H1 (lines 320-324): each class selects exactly one `(t, l)`. -/
def ConH1 (p : Problem) (c : ClassInfo) (vw : Nat → Nat → Nat → Bool) : Prop :=
  (wPairs p c).countP (fun tl => vw c.class_id tl.1 tl.2) = 1

/-- H2 (lines 326-338): per class and per candidate timeslot, the `w`
sum equals the `x` sum. -/
def ConH2 (p : Problem) (c : ClassInfo) (vw vx : Nat → Nat → Nat → Bool) : Prop :=
  ∀ t ∈ tsCandIds p c,
    (c.candidate_lecturers.filter (fun l => availB p l t)).countP
        (fun l => vw c.class_id t l)
      = (roomCandIds p c).countP (fun r => vx c.class_id t r)

/-- H3 (lines 340-348): a lecturer teaches at most one class per
timeslot.  The guard `if vars_for_lecturer` only skips vacuous sums. -/
def ConH3 (p : Problem) (vw : Nat → Nat → Nat → Bool) : Prop :=
  ∀ L ∈ p.lecturers, ∀ ts ∈ p.timeslots,
    p.classes.countP (fun c =>
      wDef p c ts.timeslot_id L.lecturer_id &&
        vw c.class_id ts.timeslot_id L.lecturer_id) ≤ 1

/-- H4 (lines 350-358): a room hosts at most one class per timeslot. -/
def ConH4 (p : Problem) (vx : Nat → Nat → Nat → Bool) : Prop :=
  ∀ R ∈ p.rooms, ∀ ts ∈ p.timeslots,
    p.classes.countP (fun c =>
      xDef p c ts.timeslot_id R.room_id &&
        vx c.class_id ts.timeslot_id R.room_id) ≤ 1

/-- The room/timeslot search of the solution projector (lines 430-438):
rooms in candidate order outermost, first `x` variable above 0.5 wins. -/
def findX (p : Problem) (vx : Nat → Nat → Nat → Bool) (c : ClassInfo) :
    Option (Nat × Nat) :=
  (roomCandIds p c).findSome? (fun r =>
    ((tsCandIds p c).find? (fun t => vx c.class_id t r)).map (fun t => (t, r)))

/-- The lecturer search at the chosen timeslot (lines 439-443):
`w_vars.get` returns `None` for an absent key, hence the `wDef` guard. -/
def findLect (p : Problem) (vw : Nat → Nat → Nat → Bool) (c : ClassInfo)
    (t : Nat) : Option Nat :=
  c.candidate_lecturers.find? (fun l => wDef p c t l && vw c.class_id t l)

/-- One class's slice of the solution projector (lines 426-445):
the `(t*, r*, l*)` triple, or `none` where the Python raises
`IncompleteAssignment`. -/
def projectClass (p : Problem) (vx vw : Nat → Nat → Nat → Bool)
    (c : ClassInfo) : Option (Nat × Nat × Nat) :=
  match findX p vx c with
  | none => none
  | some (t, r) =>
    match findLect p vw c t with
    | none => none
    | some l => some (t, r, l)

/-- `SOFT_CONSTRAINT_KEYS` (lines 100-104), in the order the totals dict
is rebuilt at line 488 (the Python set's iteration order is irrelevant:
only key membership and the sum of the values matter). -/
def KEYS : List String :=
  ["LECTURER_PREFERENCE", "ROOM_UTILIZATION", "PEAK_TIME_AVOIDANCE"]

/-- The local `pref_penalty` of `_collect_penalties` (lines 411-412). -/
def prefPenalty (p : Problem) (ts : TimeslotInfo) (L : LecturerInfo) : ℚ :=
  weightOf p "LECTURER_PREFERENCE" * (1 - prefScore p L.lecturer_id ts.timeslot_id)

/-- The local `utilization_penalty` of `_collect_penalties`
(lines 417-420): `capacity_gap / room.capacity`, zero for a room of
capacity zero. -/
def utilPenalty (p : Problem) (c : ClassInfo) (r : RoomInfo) : ℚ :=
  if r.capacity ≠ 0 then
    weightOf p "ROOM_UTILIZATION"
      * (((max (r.capacity - c.capacity) 0 : Int) : ℚ) / (r.capacity : ℚ))
  else 0

/-- Mirror of the closure `_collect_penalties` (lines 409-424): the
insertion-ordered breakdown dict and its value sum.  Note the Python
truthiness guards: the preference and utilisation components are kept
only when nonzero, but the peak component is keyed on `is_peak` alone. -/
def collect_penalties (p : Problem) (c : ClassInfo) (ts : TimeslotInfo)
    (r : RoomInfo) (L : LecturerInfo) : ℚ × List (String × ℚ) :=
  let l1 : List (String × ℚ) :=
    if prefPenalty p ts L ≠ 0 then [("LECTURER_PREFERENCE", prefPenalty p ts L)]
    else []
  let l2 : List (String × ℚ) :=
    if ts.is_peak then
      [("PEAK_TIME_AVOIDANCE", weightOf p "PEAK_TIME_AVOIDANCE" * 1)] else []
  let l3 : List (String × ℚ) :=
    if utilPenalty p c r ≠ 0 then [("ROOM_UTILIZATION", utilPenalty p c r)]
    else []
  let penalties := l1 ++ l2 ++ l3
  ((penalties.map (fun kv => kv.2)).sum, penalties)

/-- The `timeslot_infos` dict (lines 233-241). -/
def tsById (p : Problem) : List (Nat × TimeslotInfo) :=
  p.timeslots.map (fun ts => (ts.timeslot_id, ts))

/-- The `room_infos` dict (lines 222-231). -/
def roomById (p : Problem) : List (Nat × RoomInfo) :=
  p.rooms.map (fun r => (r.room_id, r))

/-- The `lecturer_infos` dict (lines 243-249). -/
def lectById (p : Problem) : List (Nat × LecturerInfo) :=
  p.lecturers.map (fun L => (L.lecturer_id, L))

/-- Error taxonomy of the pipeline (each variant is one of the
`HTTPException`s raised in `run_bwm_ilp`; `keyError` models a Python
`KeyError` on a dict lookup that the loader invariants normally rule
out). -/
inductive RunError where
  | emptyDataset
  | noCompatibleRoom (class_id : Nat)
  | noLecturerAvailability (class_id : Nat)
  | noFeasibleSchedule
  | incompleteAssignment
  | keyError
deriving DecidableEq

/-- Backend status classification (lines 395-399): `other` stands for
any status besides `OPTIMAL` and `FEASIBLE`. -/
inductive SolverStatus where
  | optimal
  | feasible
  | other
deriving DecidableEq

/-- The external MILP backend, as an oracle: its status and the rounded
0/1 valuation (`solution_value() > 0.5`) of both variable families. -/
structure SolverOutcome where
  status : SolverStatus
  vx : Nat → Nat → Nat → Bool
  vw : Nat → Nat → Nat → Bool

/-- Database session state: the committed `ScheduleEntry` rows and the
current transaction's working view.  `execute(delete ...)` and
`session.add` change only `txn`; `commit` publishes `txn`.  A session
freshly handed to `run_bwm_ilp` has `txn = committed`. -/
structure Session where
  committed : List ScheduleEntry
  txn : List ScheduleEntry
deriving DecidableEq

/-- The per-class feasibility screen of lines 289-307: the first class
with an empty room-candidate list or an empty timeslot-candidate set
aborts the run. -/
def precheck (p : Problem) : Option RunError :=
  p.classes.findSome? (fun c =>
    if roomCandIds p c = [] then some (RunError.noCompatibleRoom c.class_id)
    else if tsCandIds p c = [] then
      some (RunError.noLecturerAvailability c.class_id)
    else none)

/-- `soft_totals[key] += value` over one breakdown dict (lines 451-452);
`soft_totals` is a `defaultdict(float)` modelled as a total function. -/
def accBd (m : String → ℚ) (bd : List (String × ℚ)) : String → ℚ :=
  bd.foldl (fun m kv => fun k => if k = kv.1 then m k + kv.2 else m k) m

/-- The `AssignmentResult` built at lines 454-472. -/
def mkAssignment (c : ClassInfo) (tsI : TimeslotInfo) (rI : RoomInfo)
    (LI : LecturerInfo) (pen : ℚ) (bd : List (String × ℚ)) :
    AssignmentResult :=
  { class_id := c.class_id
    course_code := c.course_code
    course_name := c.course_name
    cohort_id := c.cohort_id
    lecturer := LI.name
    lecturer_code := LI.lecturer_code
    room_code := rI.room_code
    room_id := rI.room_id
    building := rI.building
    timeslot_id := tsI.timeslot_id
    day := tsI.day
    start_time := tsI.start_time
    end_time := tsI.end_time
    penalty := pen
    penalty_breakdown := bd }

/-- The `ScheduleEntry` row added at lines 474-484. -/
def mkEntry (p : Problem) (c : ClassInfo) (tsI : TimeslotInfo)
    (rI : RoomInfo) (LI : LecturerInfo) (pen : ℚ) : ScheduleEntry :=
  { dataset_id := p.dataset_id
    class_id := c.class_id
    lecturer_id := LI.lecturer_id
    room_id := rI.room_id
    timeslot_id := tsI.timeslot_id
    status := "simulated"
    penalty := pen }

/-- The solution-projection loop (lines 426-486): per class, extract the
chosen triple (or fail), recompute penalties, accumulate totals, build
the `AssignmentResult`, and `session.add` the `ScheduleEntry` row. -/
def projLoop (p : Problem) (out : SolverOutcome) :
    List ClassInfo → Session → List AssignmentResult → (String → ℚ) →
    Session × Except RunError (List AssignmentResult × (String → ℚ))
  | [], s, accA, accT => (s, Except.ok (accA, accT))
  | c :: rest, s, accA, accT =>
    match projectClass p out.vx out.vw c with
    | none => (s, Except.error RunError.incompleteAssignment)
    | some (t, r, l) =>
      match lookupD (tsById p) t, lookupD (roomById p) r, lookupD (lectById p) l with
      | some tsI, some rI, some LI =>
        let pr := collect_penalties p c tsI rI LI
        let a := mkAssignment c tsI rI LI pr.1 pr.2
        let e := mkEntry p c tsI rI LI pr.1
        projLoop p out rest { s with txn := s.txn ++ [e] }
          (accA ++ [a]) (accBd accT pr.2)
      | _, _, _ => (s, Except.error RunError.keyError)

/-- `execute(delete(ScheduleEntry).where(dataset_id == d))` (line 404):
removes the dataset's rows from the transaction view. -/
def deleteStage (p : Problem) (s : Session) : Session :=
  { s with txn := s.txn.filter (fun e => decide (e.dataset_id ≠ p.dataset_id)) }

/-- The `BwmIlpResult` assembled at lines 488-499: the totals dict is
rebuilt over the three recognised keys (defaulting to 0) and
`objective_value` is the sum of its values. -/
def mkResult (p : Problem) (st : SolverStatus)
    (assignments : List AssignmentResult) (totals : String → ℚ) :
    BwmIlpResult :=
  { dataset_id := p.dataset_id
    dataset_name := p.dataset_name
    objective_value := ((KEYS.map (fun k => (k, totals k))).map
      (fun kv => kv.2)).sum
    soft_constraint_totals := KEYS.map (fun k => (k, totals k))
    assignments := assignments
    solver_status := "FEASIBLE"
    status := if st = SolverStatus.optimal then "OPTIMAL" else "NOT OPTIMAL"
    execution_time := 0 }

/-- The post-solve tail of the pipeline (lines 403-499): delete the
dataset's previous rows in the transaction, run the projection loop,
then commit and build the result. -/
def finishRun (p : Problem) (out : SolverOutcome) (s : Session)
    (st : SolverStatus) : Session × Except RunError BwmIlpResult :=
  match projLoop p out p.classes (deleteStage p s) [] (fun _ => 0) with
  | (s2, Except.error e) => (s2, Except.error e)
  | (s2, Except.ok (assignments, totals)) =>
    ({ committed := s2.txn, txn := s2.txn },
      Except.ok (mkResult p st assignments totals))

/-- The full pipeline from the assembled `Problem` onwards
(lines 251-500), with the solver as an oracle.  The schedule replacement
happens inside one transaction: the `delete` of line 404 and the adds of
lines 474-484 act on the transaction view, the `commit` of line 486
publishes it. -/
def run_model (p : Problem) (out : SolverOutcome) (s : Session) :
    Session × Except RunError BwmIlpResult :=
  if p.classes.isEmpty then (s, Except.error RunError.emptyDataset)
  else
    match precheck p with
    | some e => (s, Except.error e)
    | none =>
      match out.status with
      | SolverStatus.other => (s, Except.error RunError.noFeasibleSchedule)
      | st => finishRun p out s st

/-- One inserted `ScheduleEntry` row against the `AssignmentResult` it
was created next to (lines 454-484): same class/room/timeslot ids and
penalty, status `"simulated"`, and a lecturer of the dataset carrying
the assignment's lecturer code and display name. -/
def entryMatch (p : Problem) (e : ScheduleEntry) (a : AssignmentResult) : Bool :=
  decide (e.dataset_id = p.dataset_id) && decide (e.class_id = a.class_id) &&
  decide (e.room_id = a.room_id) && decide (e.timeslot_id = a.timeslot_id) &&
  decide (e.status = "simulated") && decide (e.penalty = a.penalty) &&
  p.lecturers.any (fun L =>
    decide (L.lecturer_id = e.lecturer_id) &&
    decide (L.lecturer_code = a.lecturer_code) && decide (L.name = a.lecturer))

/-- Pointwise `entryMatch` over the whole inserted batch. -/
def entriesMatch (p : Problem) :
    List ScheduleEntry → List AssignmentResult → Bool
  | [], [] => true
  | e :: es, a :: as_ => entryMatch p e a && entriesMatch p es as_
  | _, _ => false

/-- The `lecturer_by_code` dict (line 129): last row with the code
wins. -/
def lecturer_by_code (ls : List LecturerInfo) (code : String) :
    Option LecturerInfo :=
  lookupD (ls.map (fun L => (L.lecturer_code, L))) code

/-- The candidate-lecturer resolution for one course (lines 168-178):
resolve the session profile's codes through `lecturer_by_code`, fall
back to every lecturer of the dataset when nothing resolved, then
`tuple(sorted(set(...)))`. -/
def course_candidates (ls : List LecturerInfo) (codes : List String) :
    List Nat :=
  let resolved := codes.filterMap (fun code =>
    (lecturer_by_code ls code).map (fun L => L.lecturer_id))
  let cands := if resolved.isEmpty then ls.map (fun L => L.lecturer_id)
               else resolved
  cands.dedup.insertionSort (fun a b => a ≤ b)

/-- Modelled from the spec: the room-admission rule of §4.2 as written
("a room `r` is admitted iff ALL hold" — capacity, lab discipline, and
the required-equipment rule with threshold `max(min_quantity, 1)` for
EVERY admitted room).  Used only to compare against `room_compatible`,
which the source actually runs. -/
def room_admissible_spec (reqs : List CourseEquipmentRequirement)
    (c : ClassInfo) (r : RoomInfo) : Bool :=
  decide (c.capacity ≤ r.capacity) &&
  (!c.requires_lab ||
    (r.room_type.toLower = "lab" || r.room_type.toLower = "hybrid")) &&
  (courseReqs reqs c.course_id).all (fun req =>
    if !req.session_type.isEmpty &&
        !(req.session_type.toLower = c.session_type.toLower) then true
    else if req.required_flag then
      decide (max ((req.min_quantity).getD 0) 1 ≤
        (lookupD r.equipment req.requirement_key).getD 0)
    else true)

/-- The slice of a breakdown dict carried by one soft-constraint key. -/
def keySum (bd : List (String × ℚ)) (k : String) : ℚ :=
  (bd.map (fun kv => if kv.1 = k then kv.2 else 0)).sum

/-! ### General helper lemmas -/

theorem foldl_lookup_mem {α β : Type} [DecidableEq α] {k : α} {v : β} :
    ∀ (l : List (α × β)) (acc : Option β),
      l.foldl (fun acc kv => if kv.1 = k then some kv.2 else acc) acc = some v →
      (k, v) ∈ l ∨ acc = some v := by
  intro l
  induction l with
  | nil => intro acc h; exact Or.inr h
  | cons kv rest ih =>
    intro acc h
    rw [List.foldl_cons] at h
    rcases ih _ h with hm | hacc
    · exact Or.inl (List.mem_cons_of_mem _ hm)
    · by_cases heq : kv.1 = k
      · rw [if_pos heq] at hacc
        left
        have hkv : kv = (k, v) := by
          obtain ⟨k1, v1⟩ := kv
          simp only at heq
          cases heq
          cases Option.some.inj hacc
          rfl
        rw [hkv] at *
        exact List.mem_cons_self _ _
      · rw [if_neg heq] at hacc
        exact Or.inr hacc

theorem lookupD_mem {α β : Type} [DecidableEq α] {l : List (α × β)} {k : α}
    {v : β} (h : lookupD l k = some v) : (k, v) ∈ l := by
  rcases foldl_lookup_mem l none h with hm | hbad
  · exact hm
  · cases hbad

theorem two_le_countP {α : Type} (q : α → Bool) {l : List α} {a b : α}
    (ha : a ∈ l) (hb : b ∈ l) (hab : a ≠ b)
    (hqa : q a = true) (hqb : q b = true) : 2 ≤ l.countP q := by
  induction l with
  | nil => cases ha
  | cons x xs ih =>
    rcases List.mem_cons.mp ha with rfl | ha'
    · have hb' : b ∈ xs := by
        rcases List.mem_cons.mp hb with rfl | h
        · exact absurd rfl hab
        · exact h
      have h1 : 0 < xs.countP q :=
        List.countP_pos_iff.mpr ⟨b, hb', hqb⟩
      rw [List.countP_cons]
      simp only [hqa, if_pos]
      omega
    · rcases List.mem_cons.mp hb with rfl | hb'
      · have h1 : 0 < xs.countP q :=
          List.countP_pos_iff.mpr ⟨a, ha', hqa⟩
        rw [List.countP_cons]
        simp only [hqb, if_pos]
        omega
      · have := ih ha' hb'
        rw [List.countP_cons]
        omega

theorem countP_flatMap {α β : Type} (l : List α) (f : α → List β)
    (q : β → Bool) :
    (l.flatMap f).countP q = (l.map (fun a => (f a).countP q)).sum := by
  induction l with
  | nil => rfl
  | cons x xs ih =>
    simp [List.flatMap_cons, List.countP_append, ih]

theorem sum_map_add {α : Type} (l : List α) (f g : α → ℚ) :
    (l.map (fun a => f a + g a)).sum = (l.map f).sum + (l.map g).sum := by
  induction l with
  | nil => simp
  | cons x xs ih => simp [ih]; ring

theorem sum_comm_list {α β : Type} (l1 : List α) (l2 : List β)
    (f : α → β → ℚ) :
    (l1.map (fun a => (l2.map (f a)).sum)).sum
      = (l2.map (fun b => (l1.map (fun a => f a b)).sum)).sum := by
  induction l1 with
  | nil => simp
  | cons x xs ih =>
    simp only [List.map_cons, List.sum_cons, ih, sum_map_add]

/-! ### C1: room admission -/

theorem minQty_eq_max {o : Option Int} (h : ∀ v, o = some v → 0 ≤ v) :
    minQty o = max (o.getD 0) 1 := by
  match o with
  | none => rfl
  | some v =>
    have hv := h v rfl
    by_cases h0 : v = 0
    · subst h0; rfl
    · simp only [minQty, if_neg h0, Option.getD_some]
      omega

/-- The class used by the C1 counterexample: a lecture session whose
course has a hard equipment requirement. -/
def cC1 : ClassInfo :=
  { class_id := 1, course_id := 1, course_code := "CS1", course_name := "C",
    cohort_id := "A", capacity := 10, session_type := "lecture",
    requires_lab := false, needs_back_to_back := false,
    same_room_preferred := false, candidate_lecturers := [1] }

/-- A lab-typed room holding none of the required equipment. -/
def rC1 : RoomInfo :=
  { room_id := 1, room_code := "LAB1", capacity := 20, room_type := "lab",
    building := "B", equipment := [] }

/-- A required equipment row matching any session type. -/
def reqC1 : CourseEquipmentRequirement :=
  { course_id := 1, session_type := "", requirement_key := "pc",
    min_quantity := some 2, required_flag := true, preferred_flag := false }

/-- C1 counterexample: the code admits a non-lab class to a lab-typed
room without checking the course's required equipment (the early
`return True` at line 273), while the claimed admission rule — all
three conditions, equipment enforced for every admitted room —
rejects it.  `room_admissible_spec` is the claim's rule verbatim. -/
theorem C1_counterexample :
    room_compatible [reqC1] cC1 rC1 = true
      ∧ room_admissible_spec [reqC1] cC1 rC1 = false := by
  with_unfolding_all decide

/-- C1 (amended): a room is admitted iff the capacity and lab-type
conditions hold, and EITHER the class is a non-lab session placed in a
room whose type lowercases to exactly "lab" (in which case equipment is
not checked), OR every required equipment row of the course whose
session type matches (blank meaning any) is stocked at quantity at
least `max(min_quantity, 1)`.  Stated for requirement rows whose
`min_quantity` is not negative. -/
theorem C1_amended (reqs : List CourseEquipmentRequirement)
    (c : ClassInfo) (r : RoomInfo)
    (hmin : ∀ req ∈ courseReqs reqs c.course_id,
      ∀ v, req.min_quantity = some v → 0 ≤ v) :
    room_compatible reqs c r = true ↔
      (c.capacity ≤ r.capacity
       ∧ (c.requires_lab = true →
           (r.room_type.toLower = "lab" ∨ r.room_type.toLower = "hybrid"))
       ∧ ((c.requires_lab = false ∧ r.room_type.toLower = "lab"
             ∧ c.session_type ≠ "lab")
          ∨ ∀ req ∈ courseReqs reqs c.course_id,
              (req.session_type = ""
                ∨ req.session_type.toLower = c.session_type.toLower) →
              req.required_flag = true →
              max ((req.min_quantity).getD 0) 1
                ≤ (lookupD r.equipment req.requirement_key).getD 0)) := by
  unfold room_compatible
  split_ifs with h1 h2 h3
  · simp only [Bool.false_eq_true, false_iff]
    rintro ⟨hcap, -, -⟩
    omega
  · simp only [Bool.false_eq_true, false_iff]
    rintro ⟨-, hlab, -⟩
    have hb : c.requires_lab = true ∧ ¬(r.room_type.toLower = "lab")
        ∧ ¬(r.room_type.toLower = "hybrid") := by
      simpa only [Bool.and_eq_true, Bool.not_eq_true', Bool.or_eq_false_iff,
        decide_eq_false_iff_not] using h2
    rcases hlab hb.1 with h | h
    · exact hb.2.1 h
    · exact hb.2.2 h
  · simp only [true_iff]
    have hb : c.requires_lab = false ∧ r.room_type.toLower = "lab"
        ∧ ¬(c.session_type = "lab") := by
      simpa only [Bool.and_eq_true, Bool.not_eq_true', decide_eq_true_eq,
        decide_eq_false_iff_not, and_assoc] using h3
    refine ⟨by omega, ?_, Or.inl ⟨hb.1, hb.2.1, hb.2.2⟩⟩
    intro hrl
    rw [hrl] at hb
    simpa using hb.1
  · have hb3 : ¬(c.requires_lab = false ∧ r.room_type.toLower = "lab"
        ∧ ¬(c.session_type = "lab")) := by
      intro hcon
      exact h3 (by simp [hcon.1, hcon.2.1, hcon.2.2])
    have hlab2 : c.requires_lab = true →
        (r.room_type.toLower = "lab" ∨ r.room_type.toLower = "hybrid") := by
      intro hrl
      by_contra hcon
      push_neg at hcon
      exact h2 (by simp [hrl, hcon.1, hcon.2])
    rw [List.all_eq_true]
    constructor
    · intro hall
      refine ⟨by omega, hlab2, Or.inr ?_⟩
      intro req hreq hmatch hflag
      have hx := hall req hreq
      rw [← minQty_eq_max (hmin req hreq)]
      by_cases hskip : (!req.session_type.isEmpty &&
          !(decide (req.session_type.toLower = c.session_type.toLower))) = true
      · exfalso
        have hsk : req.session_type.isEmpty = false
            ∧ ¬(req.session_type.toLower = c.session_type.toLower) := by
          simpa only [Bool.and_eq_true, Bool.not_eq_true',
            decide_eq_false_iff_not] using hskip
        rcases hmatch with hm | hm
        · exact Bool.eq_false_iff.mp hsk.1 ((String.isEmpty_iff _).mpr hm)
        · exact hsk.2 hm
      · rw [if_neg hskip] at hx
        simp only [Bool.not_eq_true', Bool.and_eq_false_iff,
          decide_eq_false_iff_not, not_lt] at hx
        rcases hx with hx | hx
        · rw [hflag] at hx
          cases hx
        · exact hx
    · rintro ⟨-, -, hrest⟩ req hreq
      rcases hrest with hshort | hall
      · exact absurd hshort hb3
      · by_cases hskip : (!req.session_type.isEmpty &&
            !(decide (req.session_type.toLower = c.session_type.toLower))) = true
        · rw [if_pos hskip]
        · rw [if_neg hskip]
          have hmatch : req.session_type = ""
              ∨ req.session_type.toLower = c.session_type.toLower := by
            by_cases hemp : req.session_type = ""
            · exact Or.inl hemp
            · have hie : req.session_type.isEmpty = false := by
                rw [← String.isEmpty_iff] at hemp
                exact Bool.eq_false_iff.mpr hemp
              refine Or.inr ?_
              by_contra hne
              exact hskip (by simp [hie, hne])
          by_cases hflag : req.required_flag = true
          · have hle := hall req hreq hmatch hflag
            rw [← minQty_eq_max (hmin req hreq)] at hle
            simp only [hflag, Bool.true_and, Bool.not_eq_true',
              decide_eq_false_iff_not, not_lt]
            exact hle
          · have hff : req.required_flag = false := Bool.eq_false_iff.mpr hflag
            simp [hff]

/-- A lecture room stocked with the required equipment, for the C1
witness. -/
def rC1w : RoomInfo :=
  { room_id := 2, room_code := "R2", capacity := 20, room_type := "lecture",
    building := "B", equipment := [("pc", 2)] }

/-- Witness for `C1_amended` at a concrete input: the hypothesis on
`min_quantity` and the right-hand side are discharged by evaluation and
the characterisation yields admission. -/
theorem C1_amended_witness : room_compatible [reqC1] cC1 rC1w = true :=
  (C1_amended [reqC1] cC1 rC1w (by with_unfolding_all decide)).mpr
    (by with_unfolding_all decide)

/-! ### C8: H1 + H2 force a unique room variable on the chosen
timeslot -/

/-- C8: for every 0/1 valuation satisfying the built H1 and H2
constraints of class `c`, exactly one `x` variable of `c` is 1, and its
timeslot index agrees with the timeslot of every selected `w` variable
of `c` (of which H1 guarantees exactly one). -/
theorem C8_unique_x (p : Problem) (c : ClassInfo)
    (vw vx : Nat → Nat → Nat → Bool)
    (h1 : ConH1 p c vw) (h2 : ConH2 p c vw vx) :
    (xPairs p c).countP (fun tr => vx c.class_id tr.1 tr.2) = 1
      ∧ ∀ tr ∈ xPairs p c, vx c.class_id tr.1 tr.2 = true →
          ∀ tl ∈ wPairs p c, vw c.class_id tl.1 tl.2 = true → tr.1 = tl.1 := by
  have hcount : (xPairs p c).countP (fun tr => vx c.class_id tr.1 tr.2) = 1 := by
    unfold xPairs
    rw [countP_flatMap]
    have hmap : (tsCandIds p c).map
          (fun t => ((roomCandIds p c).map (fun r => (t, r))).countP
            (fun tr => vx c.class_id tr.1 tr.2))
        = (tsCandIds p c).map
          (fun t => (c.candidate_lecturers.filter (fun l => availB p l t)).countP
            (fun l => vw c.class_id t l)) := by
      apply List.map_congr_left
      intro t ht
      rw [List.countP_map]
      exact (h2 t ht).symm
    rw [hmap]
    have hw : ((tsCandIds p c).map
          (fun t => (c.candidate_lecturers.filter (fun l => availB p l t)).countP
            (fun l => vw c.class_id t l))).sum
        = (wPairs p c).countP (fun tl => vw c.class_id tl.1 tl.2) := by
      unfold wPairs
      rw [countP_flatMap]
      congr 1
      apply List.map_congr_left
      intro t ht
      rw [List.countP_map]
      rfl
    rw [hw]
    exact h1
  refine ⟨hcount, ?_⟩
  intro tr htr hvx tl htl hvw
  by_contra hne
  obtain ⟨t, ht, htr'⟩ := List.mem_flatMap.mp htr
  obtain ⟨r, hr, hrfl⟩ := List.mem_map.mp htr'
  have hxr : vx c.class_id t r = true := by
    rw [← hrfl] at hvx
    exact hvx
  have hpos : 0 < (c.candidate_lecturers.filter (fun l => availB p l t)).countP
      (fun l => vw c.class_id t l) := by
    rw [h2 t ht]
    exact List.countP_pos_iff.mpr ⟨r, hr, hxr⟩
  obtain ⟨l, hl, hwl⟩ := List.countP_pos_iff.mp hpos
  have hmem : (t, l) ∈ wPairs p c :=
    List.mem_flatMap.mpr ⟨t, ht, List.mem_map.mpr ⟨l, hl, rfl⟩⟩
  have hne2 : (t, l) ≠ tl := by
    intro he
    apply hne
    rw [← hrfl, ← he]
  have h2c := two_le_countP (fun tl => vw c.class_id tl.1 tl.2)
    hmem htl hne2 hwl hvw
  rw [h1] at h2c
  omega

/-! ### The solution projector: structural lemmas -/

theorem mem_tsCandIds {p : Problem} {c : ClassInfo} {t : Nat}
    (h : t ∈ tsCandIds p c) : ∃ ts ∈ p.timeslots, ts.timeslot_id = t := by
  unfold tsCandIds at h
  obtain ⟨ts, hts, rfl⟩ := List.mem_map.mp h
  exact ⟨ts, List.mem_of_mem_filter hts, rfl⟩

theorem mem_roomCandIds {p : Problem} {c : ClassInfo} {r : Nat}
    (h : r ∈ roomCandIds p c) : ∃ R ∈ p.rooms, R.room_id = r := by
  unfold roomCandIds at h
  obtain ⟨R, hR, rfl⟩ := List.mem_map.mp h
  exact ⟨R, List.mem_of_mem_filter hR, rfl⟩

theorem findX_some {p : Problem} {vx : Nat → Nat → Nat → Bool}
    {c : ClassInfo} {t r : Nat} (h : findX p vx c = some (t, r)) :
    t ∈ tsCandIds p c ∧ r ∈ roomCandIds p c ∧ vx c.class_id t r = true := by
  unfold findX at h
  obtain ⟨r0, hr0, hsome⟩ := List.exists_of_findSome?_eq_some h
  cases hft : (tsCandIds p c).find? (fun t => vx c.class_id t r0) with
  | none => rw [hft] at hsome; cases hsome
  | some t0 =>
    rw [hft] at hsome
    have hinj := Option.some.inj hsome
    rw [Prod.mk.injEq] at hinj
    obtain ⟨ht0, hr0eq⟩ := hinj
    subst ht0
    subst hr0eq
    have hmemt := List.mem_of_find?_eq_some hft
    have hfp := List.find?_some hft
    exact ⟨hmemt, hr0, hfp⟩

theorem findLect_some {p : Problem} {vw : Nat → Nat → Nat → Bool}
    {c : ClassInfo} {t l : Nat} (h : findLect p vw c t = some l) :
    l ∈ c.candidate_lecturers ∧ wDef p c t l = true
      ∧ vw c.class_id t l = true := by
  unfold findLect at h
  have hmem := List.mem_of_find?_eq_some h
  have hp := List.find?_some h
  rw [Bool.and_eq_true] at hp
  exact ⟨hmem, hp.1, hp.2⟩

theorem projectClass_some {p : Problem} {vx vw : Nat → Nat → Nat → Bool}
    {c : ClassInfo} {t r l : Nat}
    (h : projectClass p vx vw c = some (t, r, l)) :
    t ∈ tsCandIds p c ∧ r ∈ roomCandIds p c ∧ vx c.class_id t r = true
      ∧ l ∈ c.candidate_lecturers ∧ wDef p c t l = true
      ∧ vw c.class_id t l = true := by
  unfold projectClass at h
  split at h
  · cases h
  · next t' r' hfx =>
    split at h
    · cases h
    · next l' hfl =>
      have hinj := Option.some.inj h
      rw [Prod.mk.injEq, Prod.mk.injEq] at hinj
      obtain ⟨ht, hr, hl⟩ := hinj
      subst ht; subst hr; subst hl
      obtain ⟨h1, h2, h3⟩ := findX_some hfx
      obtain ⟨h4, h5, h6⟩ := findLect_some hfl
      exact ⟨h1, h2, h3, h4, h5, h6⟩

/-! ### C2: exclusivity of lecturer and room per timeslot -/

/-- C2: for any 0/1 valuation satisfying the hard constraints, two
distinct projected assignments never share a (lecturer, timeslot) pair
nor a (room, timeslot) pair.  The hypothesis `hsub` is the loader
invariant that candidate lecturers are lecturers of the dataset
(built that way at lines 168-178). -/
theorem C2_no_double_booking (p : Problem) (vw vx : Nat → Nat → Nat → Bool)
    (h12 : ∀ c ∈ p.classes, ConH1 p c vw ∧ ConH2 p c vw vx)
    (h3 : ConH3 p vw) (h4 : ConH4 p vx)
    (hsub : ∀ c ∈ p.classes, ∀ l ∈ c.candidate_lecturers,
      ∃ L ∈ p.lecturers, L.lecturer_id = l)
    (c1 c2 : ClassInfo) (hm1 : c1 ∈ p.classes) (hm2 : c2 ∈ p.classes)
    (hne : c1.class_id ≠ c2.class_id)
    {t1 r1 l1 t2 r2 l2 : Nat}
    (hp1 : projectClass p vx vw c1 = some (t1, r1, l1))
    (hp2 : projectClass p vx vw c2 = some (t2, r2, l2)) :
    (l1, t1) ≠ (l2, t2) ∧ (r1, t1) ≠ (r2, t2) := by
  obtain ⟨hts1, hrm1, hvx1, hlm1, hwd1, hvw1⟩ := projectClass_some hp1
  obtain ⟨hts2, hrm2, hvx2, hlm2, hwd2, hvw2⟩ := projectClass_some hp2
  have hcne : c1 ≠ c2 := fun he => hne (congrArg ClassInfo.class_id he)
  constructor
  · intro he
    rw [Prod.mk.injEq] at he
    obtain ⟨hl, ht⟩ := he
    subst hl; subst ht
    obtain ⟨L, hL, hLid⟩ := hsub c1 hm1 l1 hlm1
    have hwd1' := hwd1
    unfold wDef at hwd1'
    rw [Bool.and_eq_true, Bool.and_eq_true] at hwd1'
    have hex : ∃ ts ∈ p.timeslots, ts.timeslot_id = t1 := by
      have hany := hwd1'.2
      rw [List.any_eq_true] at hany
      obtain ⟨ts, htsm, hdec⟩ := hany
      exact ⟨ts, htsm, of_decide_eq_true hdec⟩
    obtain ⟨ts, htsm, htsid⟩ := hex
    have hcon := h3 L hL ts htsm
    rw [htsid, hLid] at hcon
    have h2le := two_le_countP
      (fun c => wDef p c t1 l1 && vw c.class_id t1 l1)
      hm1 hm2 hcne
      (by rw [Bool.and_eq_true]; exact ⟨hwd1, hvw1⟩)
      (by rw [Bool.and_eq_true]; exact ⟨hwd2, hvw2⟩)
    omega
  · intro he
    rw [Prod.mk.injEq] at he
    obtain ⟨hr, ht⟩ := he
    subst hr; subst ht
    obtain ⟨R, hR, hRid⟩ := mem_roomCandIds hrm1
    obtain ⟨ts, htsm, htsid⟩ := mem_tsCandIds hts1
    have hcon := h4 R hR ts htsm
    rw [htsid, hRid] at hcon
    have hx1 : xDef p c1 t1 r1 = true := by
      unfold xDef
      rw [Bool.and_eq_true]
      constructor <;> simpa using by assumption
    have hx2 : xDef p c2 t1 r1 = true := by
      unfold xDef
      rw [Bool.and_eq_true]
      constructor <;> simpa using by assumption
    have h2le := two_le_countP
      (fun c => xDef p c t1 r1 && vx c.class_id t1 r1)
      hm1 hm2 hcne
      (by rw [Bool.and_eq_true]; exact ⟨hx1, hvx1⟩)
      (by rw [Bool.and_eq_true]; exact ⟨hx2, hvx2⟩)
    omega

/-! ### C3: when the projector fails -/

theorem findX_eq_none_iff {p : Problem} {vx : Nat → Nat → Nat → Bool}
    {c : ClassInfo} :
    findX p vx c = none ↔
      ∀ t ∈ tsCandIds p c, ∀ r ∈ roomCandIds p c,
        vx c.class_id t r = false := by
  unfold findX
  rw [List.findSome?_eq_none_iff]
  constructor
  · intro h t ht r hr
    have := h r hr
    rw [Option.map_eq_none', List.find?_eq_none] at this
    exact Bool.eq_false_iff.mpr (this t ht)
  · intro h r hr
    rw [Option.map_eq_none', List.find?_eq_none]
    intro t ht
    rw [h t ht r hr]
    exact Bool.false_ne_true

/-- C3 (amended): a class fails with `IncompleteAssignment` iff either
NO `(t, r)` pair has `x[c,t,r] > 0.5`, or the FIRST such pair in the
projector's iteration order (rooms outermost) has no candidate lecturer
with `w[c,t*,l] > 0.5`.  When several pairs are above 0.5 the projector
silently keeps the first; it never checks uniqueness. -/
theorem C3_amended (p : Problem) (vx vw : Nat → Nat → Nat → Bool)
    (c : ClassInfo) :
    projectClass p vx vw c = none ↔
      ((∀ t ∈ tsCandIds p c, ∀ r ∈ roomCandIds p c,
          vx c.class_id t r = false)
       ∨ ∃ t r, findX p vx c = some (t, r)
           ∧ ∀ l ∈ c.candidate_lecturers,
               ¬(wDef p c t l = true ∧ vw c.class_id t l = true)) := by
  cases hfx : findX p vx c with
  | none =>
    have hred : projectClass p vx vw c = none := by
      unfold projectClass
      rw [hfx]
    rw [hred]
    simp only [true_iff]
    exact Or.inl (findX_eq_none_iff.mp hfx)
  | some tr =>
    obtain ⟨t0, r0⟩ := tr
    cases hfl : findLect p vw c t0 with
    | none =>
      have hred : projectClass p vx vw c = none := by
        unfold projectClass
        rw [hfx]
        show (match findLect p vw c t0 with
          | none => none
          | some l => some (t0, r0, l)) = none
        rw [hfl]
      rw [hred]
      simp only [true_iff]
      refine Or.inr ⟨t0, r0, rfl, ?_⟩
      intro l hl hcon
      rw [findLect] at hfl
      rw [List.find?_eq_none] at hfl
      have := hfl l hl
      rw [Bool.and_eq_true] at this
      exact this ⟨hcon.1, hcon.2⟩
    | some l0 =>
      have hred : projectClass p vx vw c = some (t0, r0, l0) := by
        unfold projectClass
        rw [hfx]
        show (match findLect p vw c t0 with
          | none => none
          | some l => some (t0, r0, l)) = some (t0, r0, l0)
        rw [hfl]
      rw [hred]
      simp only [reduceCtorEq, false_iff]
      intro hcon
      obtain ⟨hts0, hrm0, hvx0⟩ := findX_some hfx
      obtain ⟨hlm0, hwd0, hvw0⟩ := findLect_some hfl
      rcases hcon with hnone | ⟨t, r, hsome, hall⟩
      · rw [hnone t0 hts0 r0 hrm0] at hvx0
        cases hvx0
      · have hinj := Option.some.inj hsome
        rw [Prod.mk.injEq] at hinj
        exact hall l0 hlm0 (hinj.1 ▸ ⟨hwd0, hvw0⟩)


/-! ### Concrete instances (used by witnesses and counterexamples) -/

/-- Everywhere-true valuation. -/
def vTrue : Nat → Nat → Nat → Bool := fun _ _ _ => true

/-- The single class of the small demo dataset (spec scenario S1). -/
def cW : ClassInfo :=
  { class_id := 1, course_id := 1, course_code := "CS101",
    course_name := "Intro", cohort_id := "A", capacity := 30,
    session_type := "lecture", requires_lab := false,
    needs_back_to_back := false, same_room_preferred := false,
    candidate_lecturers := [1] }

def rW : RoomInfo :=
  { room_id := 1, room_code := "R1", capacity := 40,
    room_type := "lecture", building := "B", equipment := [] }

def tW : TimeslotInfo :=
  { timeslot_id := 1, day := "MON", start_time := 8, end_time := 10,
    is_peak := false }

def LW : LecturerInfo :=
  { lecturer_id := 1, lecturer_code := "L1", name := "Alice" }

/-- Scenario S1: one class, one room (capacity 40 vs 30), one non-peak
timeslot, one available lecturer with preference 1, BWM weights
(0.45, 0.35, 0.20). -/
def pW : Problem :=
  { dataset_id := 1, dataset_name := "demo", classes := [cW],
    rooms := [rW], timeslots := [tW], lecturers := [LW],
    availability := [((1, 1), true)], preferences := [((1, 1), 1)],
    weights := [("LECTURER_PREFERENCE", 45/100), ("ROOM_UTILIZATION", 35/100),
      ("PEAK_TIME_AVOIDANCE", 20/100)],
    requirements := [] }

def outW : SolverOutcome :=
  { status := SolverStatus.optimal, vx := vTrue, vw := vTrue }

/-- A stale entry of dataset 1 from a previous run. -/
def eOld : ScheduleEntry :=
  { dataset_id := 1, class_id := 9, lecturer_id := 9, room_id := 9,
    timeslot_id := 9, status := "simulated", penalty := 5 }

/-- An entry of another dataset, which a run on dataset 1 must keep. -/
def eKeep : ScheduleEntry :=
  { dataset_id := 2, class_id := 8, lecturer_id := 8, room_id := 8,
    timeslot_id := 8, status := "simulated", penalty := 3 }

/-- A freshly opened session holding both. -/
def sW : Session := { committed := [eOld, eKeep], txn := [eOld, eKeep] }

/-- Witness for `C8_unique_x`: on scenario S1 with the all-true
valuation, H1 and H2 hold and exactly one `x` pair is selected. -/
theorem C8_witness :
    (xPairs pW cW).countP (fun tr => vTrue cW.class_id tr.1 tr.2) = 1 :=
  (C8_unique_x pW cW vTrue vTrue
    (by unfold ConH1; with_unfolding_all decide)
    (by unfold ConH2; with_unfolding_all decide)).1

/-! C2 witness instance: two classes, two rooms, two timeslots, two
lecturers, fully available; the valuation schedules class 1 at
(t=1, r=1, l=1) and class 2 at (t=2, r=2, l=2). -/

def cA : ClassInfo :=
  { class_id := 1, course_id := 1, course_code := "CS101",
    course_name := "Intro", cohort_id := "A", capacity := 30,
    session_type := "lecture", requires_lab := false,
    needs_back_to_back := false, same_room_preferred := false,
    candidate_lecturers := [1, 2] }

def cB : ClassInfo :=
  { class_id := 2, course_id := 1, course_code := "CS101",
    course_name := "Intro", cohort_id := "B", capacity := 30,
    session_type := "lecture", requires_lab := false,
    needs_back_to_back := false, same_room_preferred := false,
    candidate_lecturers := [1, 2] }

def r2W : RoomInfo :=
  { room_id := 2, room_code := "R2", capacity := 40,
    room_type := "lecture", building := "B", equipment := [] }

def t2W : TimeslotInfo :=
  { timeslot_id := 2, day := "MON", start_time := 10, end_time := 12,
    is_peak := false }

def L2W : LecturerInfo :=
  { lecturer_id := 2, lecturer_code := "L2", name := "Bob" }

def p2 : Problem :=
  { dataset_id := 1, dataset_name := "demo", classes := [cA, cB],
    rooms := [rW, r2W], timeslots := [tW, t2W], lecturers := [LW, L2W],
    availability := [((1, 1), true), ((1, 2), true), ((2, 1), true),
      ((2, 2), true)],
    preferences := [], weights := [], requirements := [] }

def vw2 : Nat → Nat → Nat → Bool := fun c t l =>
  (decide (c = 1) && decide (t = 1) && decide (l = 1))
    || (decide (c = 2) && decide (t = 2) && decide (l = 2))

def vx2 : Nat → Nat → Nat → Bool := fun c t r =>
  (decide (c = 1) && decide (t = 1) && decide (r = 1))
    || (decide (c = 2) && decide (t = 2) && decide (r = 2))

/-- Witness for `C2_no_double_booking` at the two-class instance. -/
theorem C2_witness :
    (((1 : Nat), (1 : Nat)) ≠ ((2 : Nat), (2 : Nat)))
      ∧ (((1 : Nat), (1 : Nat)) ≠ ((2 : Nat), (2 : Nat))) :=
  C2_no_double_booking p2 vw2 vx2
    (by unfold ConH1 ConH2; with_unfolding_all decide)
    (by unfold ConH3; with_unfolding_all decide)
    (by unfold ConH4; with_unfolding_all decide)
    (by with_unfolding_all decide)
    cA cB (by with_unfolding_all decide) (by with_unfolding_all decide)
    (by with_unfolding_all decide)
    (by with_unfolding_all decide) (by with_unfolding_all decide)

/-! C3 counterexample instance: scenario S1 with a second compatible
room and the all-true valuation: two `x` pairs exceed 0.5, yet the
projector succeeds with the first one instead of failing. -/

def p3 : Problem :=
  { dataset_id := 1, dataset_name := "demo", classes := [cW],
    rooms := [rW, r2W], timeslots := [tW], lecturers := [LW],
    availability := [((1, 1), true)], preferences := [((1, 1), 1)],
    weights := [], requirements := [] }

/-- C3 counterexample: two pairs `(t, r)` have `x[c,t,r] > 0.5`
("more than one"), but the projector does not fail: it returns the
first pair in room-major order. -/
theorem C3_counterexample :
    (xPairs p3 cW).countP (fun tr => vTrue cW.class_id tr.1 tr.2) = 2
      ∧ projectClass p3 vTrue vTrue cW = some (1, 1, 1) := by
  with_unfolding_all decide

/-! ### C4: the penalty breakdown -/

theorem collect_bd_eq (p : Problem) (c : ClassInfo) (ts : TimeslotInfo)
    (r : RoomInfo) (L : LecturerInfo) :
    (collect_penalties p c ts r L).2 =
      (if prefPenalty p ts L ≠ 0 then
        [("LECTURER_PREFERENCE", prefPenalty p ts L)] else [])
      ++ (if ts.is_peak then
        [("PEAK_TIME_AVOIDANCE", weightOf p "PEAK_TIME_AVOIDANCE" * 1)] else [])
      ++ (if utilPenalty p c r ≠ 0 then
        [("ROOM_UTILIZATION", utilPenalty p c r)] else []) := rfl

theorem collect_total (p : Problem) (c : ClassInfo) (ts : TimeslotInfo)
    (r : RoomInfo) (L : LecturerInfo) :
    (collect_penalties p c ts r L).1
      = ((collect_penalties p c ts r L).2.map (fun kv => kv.2)).sum := rfl

/-- Every breakdown entry is one of the three components, with its
defining value and guard. -/
theorem collect_mem (p : Problem) (c : ClassInfo) (ts : TimeslotInfo)
    (r : RoomInfo) (L : LecturerInfo) :
    ∀ kv ∈ (collect_penalties p c ts r L).2,
      (kv = ("LECTURER_PREFERENCE", prefPenalty p ts L) ∧ prefPenalty p ts L ≠ 0)
      ∨ (kv = ("PEAK_TIME_AVOIDANCE", weightOf p "PEAK_TIME_AVOIDANCE" * 1)
          ∧ ts.is_peak = true)
      ∨ (kv = ("ROOM_UTILIZATION", utilPenalty p c r) ∧ utilPenalty p c r ≠ 0) := by
  intro kv hkv
  rw [collect_bd_eq] at hkv
  rw [List.mem_append, List.mem_append] at hkv
  rcases hkv with (h | h) | h
  · left
    by_cases hc : prefPenalty p ts L ≠ 0
    · rw [if_pos hc] at h
      exact ⟨List.mem_singleton.mp h, hc⟩
    · rw [if_neg hc] at h
      cases h
  · right; left
    by_cases hc : ts.is_peak = true
    · rw [if_pos hc] at h
      exact ⟨List.mem_singleton.mp h, hc⟩
    · rw [if_neg hc] at h
      cases h
  · right; right
    by_cases hc : utilPenalty p c r ≠ 0
    · rw [if_pos hc] at h
      exact ⟨List.mem_singleton.mp h, hc⟩
    · rw [if_neg hc] at h
      cases h

theorem prefPenalty_nonneg {p : Problem} {ts : TimeslotInfo}
    {L : LecturerInfo} (hw : 0 ≤ weightOf p "LECTURER_PREFERENCE")
    (hs : prefScore p L.lecturer_id ts.timeslot_id ≤ 1) :
    0 ≤ prefPenalty p ts L := by
  unfold prefPenalty
  apply mul_nonneg hw
  linarith

theorem utilPenalty_nonneg {p : Problem} {c : ClassInfo} {r : RoomInfo}
    (hw : 0 ≤ weightOf p "ROOM_UTILIZATION") (hcap : 0 ≤ r.capacity) :
    0 ≤ utilPenalty p c r := by
  unfold utilPenalty
  split_ifs with h
  · apply mul_nonneg hw
    apply div_nonneg
    · exact_mod_cast le_max_right _ _
    · exact_mod_cast hcap
  · exact le_refl 0

/-- C4 (amended): the assignment penalty equals the sum of the values
of its breakdown map, and the LECTURER_PREFERENCE and ROOM_UTILIZATION
components are present only when strictly positive — but the
PEAK_TIME_AVOIDANCE component is present exactly when the timeslot is
peak, with value `W_peak × 1`, which may be zero.  Positivity is stated
under nonnegative weights, preference scores at most 1 and a
nonnegative room capacity. -/
theorem C4_amended (p : Problem) (c : ClassInfo) (ts : TimeslotInfo)
    (r : RoomInfo) (L : LecturerInfo)
    (hw1 : 0 ≤ weightOf p "LECTURER_PREFERENCE")
    (hw3 : 0 ≤ weightOf p "ROOM_UTILIZATION")
    (hs : prefScore p L.lecturer_id ts.timeslot_id ≤ 1)
    (hcap : 0 ≤ r.capacity) :
    (collect_penalties p c ts r L).1
        = ((collect_penalties p c ts r L).2.map (fun kv => kv.2)).sum
      ∧ (∀ kv ∈ (collect_penalties p c ts r L).2,
          kv.1 ≠ "PEAK_TIME_AVOIDANCE" → 0 < kv.2)
      ∧ ((∃ kv ∈ (collect_penalties p c ts r L).2,
          kv.1 = "PEAK_TIME_AVOIDANCE") ↔ ts.is_peak = true)
      ∧ (∀ kv ∈ (collect_penalties p c ts r L).2,
          kv.1 = "PEAK_TIME_AVOIDANCE" →
            kv.2 = weightOf p "PEAK_TIME_AVOIDANCE" * 1) := by
  refine ⟨collect_total p c ts r L, ?_, ?_, ?_⟩
  · intro kv hkv hk
    rcases collect_mem p c ts r L kv hkv with ⟨hkv', hne⟩ | ⟨hkv', -⟩ | ⟨hkv', hne⟩
    · rw [hkv']
      exact lt_of_le_of_ne (prefPenalty_nonneg hw1 hs) (Ne.symm hne)
    · rw [hkv'] at hk
      exact absurd rfl hk
    · rw [hkv']
      exact lt_of_le_of_ne (utilPenalty_nonneg hw3 hcap) (Ne.symm hne)
  · constructor
    · rintro ⟨kv, hkv, hk⟩
      rcases collect_mem p c ts r L kv hkv with ⟨hkv', -⟩ | ⟨-, hpk⟩ | ⟨hkv', -⟩
      · rw [hkv'] at hk
        exact absurd (show ("LECTURER_PREFERENCE" : String)
          = "PEAK_TIME_AVOIDANCE" from hk) (by decide)
      · exact hpk
      · rw [hkv'] at hk
        exact absurd (show ("ROOM_UTILIZATION" : String)
          = "PEAK_TIME_AVOIDANCE" from hk) (by decide)
    · intro hpk
      refine ⟨("PEAK_TIME_AVOIDANCE", weightOf p "PEAK_TIME_AVOIDANCE" * 1), ?_, rfl⟩
      rw [collect_bd_eq]
      apply List.mem_append_left
      apply List.mem_append_right
      rw [if_pos hpk]
      exact List.mem_singleton.mpr rfl
  · intro kv hkv hk
    rcases collect_mem p c ts r L kv hkv with ⟨hkv', -⟩ | ⟨hkv', -⟩ | ⟨hkv', -⟩
    · rw [hkv'] at hk
      exact absurd (show ("LECTURER_PREFERENCE" : String)
        = "PEAK_TIME_AVOIDANCE" from hk) (by decide)
    · rw [hkv']
    · rw [hkv'] at hk
      exact absurd (show ("ROOM_UTILIZATION" : String)
        = "PEAK_TIME_AVOIDANCE" from hk) (by decide)

/-- Scenario-S2-like peak timeslot. -/
def t4 : TimeslotInfo :=
  { timeslot_id := 1, day := "MON", start_time := 8, end_time := 10,
    is_peak := true }

/-- Peak timeslot, PEAK_TIME_AVOIDANCE weight missing (defaults to 0),
preference 1 and no utilisation weight: the recomputed peak component
is 0 yet it is stored in the breakdown. -/
def p4 : Problem :=
  { dataset_id := 1, dataset_name := "demo", classes := [cW],
    rooms := [rW], timeslots := [t4], lecturers := [LW],
    availability := [((1, 1), true)], preferences := [((1, 1), 1)],
    weights := [("LECTURER_PREFERENCE", 1)], requirements := [] }

/-- The empty database session. -/
def s0 : Session := { committed := [], txn := [] }

/-- C4 counterexample: a successful run whose single assignment carries
`penalty_breakdown = {PEAK_TIME_AVOIDANCE: 0}` — a stored value that is
not strictly positive, and a zero component that is not omitted. -/
theorem C4_counterexample :
    Except.map (fun res => res.assignments.map (fun a => a.penalty_breakdown))
        (run_model p4 outW s0).2
      = Except.ok [[("PEAK_TIME_AVOIDANCE", (0 : ℚ))]] := by
  with_unfolding_all rfl

/-- Witness for `C4_amended` on scenario S1. -/
theorem C4_witness :
    (collect_penalties pW cW tW rW LW).1
      = ((collect_penalties pW cW tW rW LW).2.map (fun kv => kv.2)).sum :=
  (C4_amended pW cW tW rW LW (by with_unfolding_all decide)
    (by with_unfolding_all decide) (by with_unfolding_all decide)
    (by with_unfolding_all decide)).1

/-! ### C9: candidate-lecturer resolution -/

/-- C9: a lecturer id is among the course's model candidates iff one of
the profile's candidate codes resolves to that lecturer, or no code
resolves at all and the id belongs to some lecturer of the dataset
(the fallback of lines 176-177). -/
theorem C9_candidates (ls : List LecturerInfo) (codes : List String)
    (i : Nat) :
    i ∈ course_candidates ls codes ↔
      ((∃ code ∈ codes, ∃ L, lecturer_by_code ls code = some L
          ∧ L.lecturer_id = i)
       ∨ ((∀ code ∈ codes, lecturer_by_code ls code = none)
           ∧ ∃ L ∈ ls, L.lecturer_id = i)) := by
  unfold course_candidates
  rw [(List.perm_insertionSort _ _).mem_iff, List.mem_dedup]
  by_cases hres : (codes.filterMap (fun code =>
      (lecturer_by_code ls code).map (fun L => L.lecturer_id))).isEmpty = true
  · rw [if_pos hres]
    have hfail : ∀ code ∈ codes, lecturer_by_code ls code = none := by
      intro code hcode
      have := List.filterMap_eq_nil_iff.mp (List.isEmpty_iff.mp hres) code hcode
      rw [Option.map_eq_none'] at this
      exact this
    constructor
    · intro hmem
      obtain ⟨L, hL, hid⟩ := List.mem_map.mp hmem
      exact Or.inr ⟨hfail, L, hL, hid⟩
    · rintro (⟨code, hcode, L, hsome, -⟩ | ⟨-, L, hL, hid⟩)
      · rw [hfail code hcode] at hsome
        cases hsome
      · exact List.mem_map.mpr ⟨L, hL, hid⟩
  · rw [if_neg hres]
    rw [List.mem_filterMap]
    constructor
    · rintro ⟨code, hcode, hsome⟩
      rw [Option.map_eq_some'] at hsome
      obtain ⟨L, hL, hid⟩ := hsome
      exact Or.inl ⟨code, hcode, L, hL, hid⟩
    · rintro (⟨code, hcode, L, hsome, hid⟩ | ⟨hfail, -⟩)
      · exact ⟨code, hcode, Option.map_eq_some'.mpr ⟨L, hsome, hid⟩⟩
      · exfalso
        apply hres
        rw [List.isEmpty_iff, List.filterMap_eq_nil_iff]
        intro code hcode
        rw [Option.map_eq_none']
        exact hfail code hcode

/-- Witness for `C9_candidates`: code "L2" resolves, so the candidate
set is `[2]` and `1` (unresolved id) is excluded. -/
theorem C9_witness :
    (2 : Nat) ∈ course_candidates [LW, L2W] ["L2"]
      ∧ ¬((1 : Nat) ∈ course_candidates [LW, L2W] ["L2"]) :=
  ⟨(C9_candidates [LW, L2W] ["L2"] 2).mpr
      (Or.inl ⟨"L2", by with_unfolding_all decide, L2W,
        by with_unfolding_all decide, by with_unfolding_all decide⟩),
    fun h => by
      rcases (C9_candidates [LW, L2W] ["L2"] 1).mp h with
        ⟨code, hcode, L, hsome, hid⟩ | ⟨hfail, -⟩
      · rw [List.mem_singleton.mp hcode] at hsome
        have hL : L = L2W := by
          have : some L = some L2W := by
            rw [← hsome]
            with_unfolding_all decide
          exact Option.some.inj this
        rw [hL] at hid
        exact absurd hid (by with_unfolding_all decide)
      · exact absurd (hfail "L2" (by with_unfolding_all decide))
          (by with_unfolding_all decide)⟩

/-! ### Totals bookkeeping -/

theorem keySum_append (l1 l2 : List (String × ℚ)) (k : String) :
    keySum (l1 ++ l2) k = keySum l1 k + keySum l2 k := by
  simp [keySum]

theorem accBd_apply (bd : List (String × ℚ)) :
    ∀ (m : String → ℚ) (k : String),
      accBd m bd k = m k + keySum bd k := by
  induction bd with
  | nil => intro m k; simp [accBd, keySum]
  | cons kv rest ih =>
    intro m k
    show accBd (fun k => if k = kv.1 then m k + kv.2 else m k) rest k
      = m k + keySum (kv :: rest) k
    rw [ih]
    unfold keySum
    rw [List.map_cons, List.sum_cons]
    by_cases h : k = kv.1
    · rw [if_pos h, if_pos h.symm]
      ring
    · rw [if_neg h, if_neg (fun he => h he.symm)]
      ring

/-- Summing the three recognised keys over one breakdown recovers the
assignment penalty: every breakdown key is one of the three, each at
most once. -/
theorem collect_keysum (p : Problem) (c : ClassInfo) (ts : TimeslotInfo)
    (r : RoomInfo) (L : LecturerInfo) :
    (KEYS.map (fun k => keySum (collect_penalties p c ts r L).2 k)).sum
      = (collect_penalties p c ts r L).1 := by
  have hne1 : ("LECTURER_PREFERENCE" : String) ≠ "ROOM_UTILIZATION" := by decide
  have hne2 : ("LECTURER_PREFERENCE" : String) ≠ "PEAK_TIME_AVOIDANCE" := by decide
  have hne3 : ("ROOM_UTILIZATION" : String) ≠ "PEAK_TIME_AVOIDANCE" := by decide
  rw [collect_total, collect_bd_eq]
  unfold KEYS
  rw [List.map_cons, List.map_cons, List.map_cons, List.map_nil]
  rw [List.sum_cons, List.sum_cons, List.sum_cons, List.sum_nil]
  rw [keySum_append, keySum_append, keySum_append, keySum_append,
    keySum_append, keySum_append]
  rw [List.map_append, List.map_append, List.sum_append, List.sum_append]
  split_ifs with h1 h2 h3 <;>
    simp [keySum, hne1, hne2, hne3, Ne.symm hne1, Ne.symm hne2, Ne.symm hne3] <;>
    ring

theorem lookupD_tag_mem {α : Type} [DecidableEq Nat] (f : α → Nat)
    (l : List α) {k : Nat} {v : α}
    (h : lookupD (l.map (fun x => (f x, x))) k = some v) :
    v ∈ l ∧ f v = k := by
  have hm := lookupD_mem h
  obtain ⟨x, hx, hpair⟩ := List.mem_map.mp hm
  rw [Prod.mk.injEq] at hpair
  obtain ⟨hfk, hxv⟩ := hpair
  subst hxv
  exact ⟨hx, hfk⟩

/-! ### The projection loop invariant -/

theorem projLoop_invariant (p : Problem) (out : SolverOutcome) :
    ∀ (cls : List ClassInfo) (s : Session) (accA : List AssignmentResult)
      (accT : String → ℚ) (s2 : Session)
      (res : Except RunError (List AssignmentResult × (String → ℚ))),
      projLoop p out cls s accA accT = (s2, res) →
      s2.committed = s.committed
      ∧ res ≠ Except.error RunError.noFeasibleSchedule
      ∧ ∀ A T, res = Except.ok (A, T) →
          ∃ delta newE,
            A = accA ++ delta
            ∧ s2.txn = s.txn ++ newE
            ∧ entriesMatch p newE delta = true
            ∧ (∀ e ∈ newE, e.dataset_id = p.dataset_id)
            ∧ (∀ k, T k = accT k
                + (delta.map (fun a => keySum a.penalty_breakdown k)).sum)
            ∧ (∀ a ∈ delta, ∃ c tsI rI LI,
                rI ∈ p.rooms ∧ LI ∈ p.lecturers ∧ tsI ∈ p.timeslots
                ∧ a.penalty = (collect_penalties p c tsI rI LI).1
                ∧ a.penalty_breakdown = (collect_penalties p c tsI rI LI).2) := by
  intro cls
  induction cls with
  | nil =>
    intro s accA accT s2 res h
    unfold projLoop at h
    rw [Prod.mk.injEq] at h
    obtain ⟨rfl, rfl⟩ := h
    refine ⟨rfl, by simp, ?_⟩
    intro A T hok
    have hinj := Except.ok.inj hok
    rw [Prod.mk.injEq] at hinj
    obtain ⟨rfl, rfl⟩ := hinj
    refine ⟨[], [], by simp, by simp, rfl, by simp, ?_, by simp⟩
    intro k
    simp
  | cons c rest ih =>
    intro s accA accT s2 res h
    unfold projLoop at h
    split at h
    · rw [Prod.mk.injEq] at h
      obtain ⟨rfl, rfl⟩ := h
      exact ⟨rfl, by simp, fun A T hok => by cases hok⟩
    · next t r l hproj =>
      split at h
      · next tsI rI LI hts hrm hlc =>
        obtain ⟨hcom, hnofe, hok⟩ := ih _ _ _ _ _ h
        refine ⟨hcom, hnofe, ?_⟩
        intro A T hres
        obtain ⟨delta, newE, hA, htxn, hmatch, hds, hT, hprov⟩ :=
          hok A T hres
        obtain ⟨htsm, htsid⟩ := lookupD_tag_mem _ _ hts
        obtain ⟨hrmm, hrmid⟩ := lookupD_tag_mem _ _ hrm
        obtain ⟨hlcm, hlcid⟩ := lookupD_tag_mem _ _ hlc
        refine ⟨mkAssignment c tsI rI LI (collect_penalties p c tsI rI LI).1
            (collect_penalties p c tsI rI LI).2 :: delta,
          mkEntry p c tsI rI LI (collect_penalties p c tsI rI LI).1 :: newE,
          ?_, ?_, ?_, ?_, ?_, ?_⟩
        · rw [hA]
          simp
        · rw [htxn]
          simp
        · show (entryMatch p _ _ && entriesMatch p newE delta) = true
          rw [Bool.and_eq_true]
          refine ⟨?_, hmatch⟩
          unfold entryMatch
          simp only [Bool.and_eq_true, decide_eq_true_eq]
          refine ⟨⟨⟨⟨⟨⟨rfl, rfl⟩, rfl⟩, rfl⟩, rfl⟩, rfl⟩, ?_⟩
          rw [List.any_eq_true]
          exact ⟨LI, hlcm, by simp [mkEntry, mkAssignment]⟩
        · intro e he
          rcases List.mem_cons.mp he with rfl | he'
          · rfl
          · exact hds e he'
        · intro k
          rw [hT k, accBd_apply]
          simp only [List.map_cons, List.sum_cons, mkAssignment]
          ring
        · intro a ha
          rcases List.mem_cons.mp ha with rfl | ha'
          · exact ⟨c, tsI, rI, LI, hrmm, hlcm, htsm, rfl, rfl⟩
          · exact hprov a ha'
      · next hnl =>
        rw [Prod.mk.injEq] at h
        obtain ⟨rfl, rfl⟩ := h
        exact ⟨rfl, by simp, fun A T hok => by cases hok⟩

/-! ### Characterising `run_model` -/

theorem precheck_some_shape {p : Problem} {e : RunError}
    (h : precheck p = some e) :
    (∃ cid, e = RunError.noCompatibleRoom cid)
      ∨ (∃ cid, e = RunError.noLecturerAvailability cid) := by
  unfold precheck at h
  obtain ⟨c, -, hsome⟩ := List.exists_of_findSome?_eq_some h
  split_ifs at hsome
  · exact Or.inl ⟨c.class_id, (Option.some.inj hsome).symm⟩
  · exact Or.inr ⟨c.class_id, (Option.some.inj hsome).symm⟩

theorem run_model_empty (p : Problem) (out : SolverOutcome) (s : Session)
    (h : p.classes.isEmpty = true) :
    run_model p out s = (s, Except.error RunError.emptyDataset) := by
  unfold run_model
  rw [if_pos h]

theorem run_model_precheck_some (p : Problem) (out : SolverOutcome)
    (s : Session) {e : RunError} (h1 : p.classes.isEmpty = false)
    (h2 : precheck p = some e) :
    run_model p out s = (s, Except.error e) := by
  unfold run_model
  rw [if_neg (by rw [h1]; exact Bool.false_ne_true), h2]

theorem run_model_nofeasible (p : Problem) (out : SolverOutcome)
    (s : Session) (h1 : p.classes.isEmpty = false)
    (h2 : precheck p = none) (h3 : out.status = SolverStatus.other) :
    run_model p out s = (s, Except.error RunError.noFeasibleSchedule) := by
  unfold run_model
  rw [if_neg (by rw [h1]; exact Bool.false_ne_true), h2, h3]

theorem run_model_solved (p : Problem) (out : SolverOutcome) (s : Session)
    (h1 : p.classes.isEmpty = false) (h2 : precheck p = none)
    (h3 : out.status ≠ SolverStatus.other) :
    run_model p out s = finishRun p out s out.status := by
  unfold run_model
  rw [if_neg (by rw [h1]; exact Bool.false_ne_true), h2]
  cases hst : out.status with
  | other => exact absurd hst h3
  | optimal => rfl
  | feasible => rfl

theorem finishRun_error {p : Problem} {out : SolverOutcome} {s : Session}
    {st : SolverStatus} {s2 : Session} {e : RunError}
    (hloop : projLoop p out p.classes (deleteStage p s) [] (fun _ => 0)
      = (s2, Except.error e)) :
    finishRun p out s st = (s2, Except.error e) := by
  unfold finishRun
  rw [hloop]

theorem finishRun_ok {p : Problem} {out : SolverOutcome} {s : Session}
    {st : SolverStatus} {s2 : Session} {A : List AssignmentResult}
    {T : String → ℚ}
    (hloop : projLoop p out p.classes (deleteStage p s) [] (fun _ => 0)
      = (s2, Except.ok (A, T))) :
    finishRun p out s st
      = ({ committed := s2.txn, txn := s2.txn },
          Except.ok (mkResult p st A T)) := by
  unfold finishRun
  rw [hloop]

/-! ### C5: errors leave the committed state unchanged -/

/-- C5: any error leaves the committed `ScheduleEntry` rows exactly as
they were (the transaction never commits before the result is built),
and `NoFeasibleSchedule` is raised precisely when the preprocessing
passed and the solver status was neither OPTIMAL nor FEASIBLE. -/
theorem C5_error_state (p : Problem) (out : SolverOutcome) (s : Session) :
    (∀ e : RunError, (run_model p out s).2 = Except.error e →
      ((run_model p out s).1).committed = s.committed)
      ∧ ((run_model p out s).2 = Except.error RunError.noFeasibleSchedule ↔
          (p.classes.isEmpty = false ∧ precheck p = none
            ∧ out.status = SolverStatus.other)) := by
  cases hemp : p.classes.isEmpty with
  | true =>
    rw [run_model_empty p out s hemp]
    refine ⟨fun e _ => rfl, ?_⟩
    simp [hemp]
  | false =>
    cases hpre : precheck p with
    | some e0 =>
      rw [run_model_precheck_some p out s hemp hpre]
      refine ⟨fun e _ => rfl, ?_⟩
      have hne : e0 ≠ RunError.noFeasibleSchedule := by
        rcases precheck_some_shape hpre with ⟨cid, hc⟩ | ⟨cid, hc⟩ <;>
          rw [hc] <;> simp
      simp [hpre, hne]
    | none =>
      have hsolved : ∀ hst : out.status ≠ SolverStatus.other,
          (∀ e : RunError, (run_model p out s).2 = Except.error e →
            ((run_model p out s).1).committed = s.committed)
          ∧ ((run_model p out s).2
                = Except.error RunError.noFeasibleSchedule ↔
              (p.classes.isEmpty = false ∧ precheck p = none
                ∧ out.status = SolverStatus.other)) := by
        intro hst
        rw [run_model_solved p out s hemp hpre hst]
        cases hloop : projLoop p out p.classes (deleteStage p s) []
            (fun _ => 0) with
        | mk s2 res =>
          obtain ⟨hcom, hnofe, -⟩ :=
            projLoop_invariant p out p.classes (deleteStage p s) []
              (fun _ => 0) s2 res hloop
          cases res with
          | error e =>
            rw [finishRun_error hloop]
            have hne : e ≠ RunError.noFeasibleSchedule :=
              fun hf => hnofe (by rw [hf])
            refine ⟨fun e' _ => hcom, ?_⟩
            simp [hne, hst]
          | ok AT =>
            obtain ⟨A, T⟩ := AT
            rw [finishRun_ok hloop]
            refine ⟨fun e' he' => absurd he' (by simp), ?_⟩
            simp [hst]
      by_cases hst : out.status = SolverStatus.other
      · rw [run_model_nofeasible p out s hemp hpre hst]
        exact ⟨fun e _ => rfl, by simp [hemp, hpre, hst]⟩
      · have hres := hsolved hst
        simpa [hemp, hpre] using hres

/-- A dataset with no classes, for the C5 witness. -/
def pEmpty : Problem :=
  { dataset_id := 1, dataset_name := "demo", classes := [], rooms := [],
    timeslots := [], lecturers := [], availability := [], preferences := [],
    weights := [], requirements := [] }

/-- Witness for `C5_error_state`: a failing run (empty dataset) leaves
the two pre-existing committed rows untouched. -/
theorem C5_witness :
    (run_model pEmpty outW sW).2 = Except.error RunError.emptyDataset
      ∧ ((run_model pEmpty outW sW).1).committed = sW.committed :=
  ⟨by with_unfolding_all rfl,
    (C5_error_state pEmpty outW sW).1 RunError.emptyDataset
      (by with_unfolding_all rfl)⟩

/-! ### C6: persistence after a successful run -/

/-- C6: after a successful run on a freshly opened session, the
committed rows are exactly the rows of the other datasets plus one new
row per returned assignment — in order, carrying the assignment's
class, room and timeslot ids, the id of the lecturer bearing the
assignment's lecturer code and name, status `"simulated"` and the
assignment's penalty.  No prior row of this dataset survives (the new
rows all carry this dataset's id and everything with this dataset's id
was filtered out of the old rows). -/
theorem C6_persistence (p : Problem) (out : SolverOutcome) (s : Session)
    (res : BwmIlpResult) (hfresh : s.txn = s.committed)
    (hok : (run_model p out s).2 = Except.ok res) :
    ∃ newE, ((run_model p out s).1).committed
        = s.committed.filter (fun e => decide (e.dataset_id ≠ p.dataset_id))
          ++ newE
      ∧ entriesMatch p newE res.assignments = true
      ∧ ∀ e ∈ newE, e.dataset_id = p.dataset_id := by
  by_cases hemp : p.classes.isEmpty = true
  · rw [run_model_empty p out s hemp] at hok
    exact absurd hok (by simp)
  · have hempf : p.classes.isEmpty = false := Bool.eq_false_iff.mpr hemp
    cases hpre : precheck p with
    | some e0 =>
      rw [run_model_precheck_some p out s hempf hpre] at hok
      exact absurd hok (by simp)
    | none =>
      by_cases hst : out.status = SolverStatus.other
      · rw [run_model_nofeasible p out s hempf hpre hst] at hok
        exact absurd hok (by simp)
      · rw [run_model_solved p out s hempf hpre hst] at hok ⊢
        cases hloop : projLoop p out p.classes (deleteStage p s) []
            (fun _ => 0) with
        | mk s2 lres =>
          obtain ⟨hcom, -, hokinv⟩ :=
            projLoop_invariant p out p.classes (deleteStage p s) []
              (fun _ => 0) s2 lres hloop
          cases lres with
          | error e =>
            rw [finishRun_error hloop] at hok
            exact absurd hok (by simp)
          | ok AT =>
            obtain ⟨A, T⟩ := AT
            rw [finishRun_ok hloop] at hok ⊢
            have hres : res = mkResult p out.status A T :=
              (Except.ok.inj hok).symm
            obtain ⟨delta, newE, hA, htxn, hmatch, hds, -, -⟩ :=
              hokinv A T rfl
            refine ⟨newE, ?_, ?_, hds⟩
            · show s2.txn = _
              rw [htxn]
              show (deleteStage p s).txn ++ newE = _
              unfold deleteStage
              rw [hfresh]
            · rw [hres]
              show entriesMatch p newE A = true
              rw [hA, List.nil_append]
              exact hmatch

/-! ### C7: penalty accounting -/

/-- C7: over exact (rational) arithmetic a successful run satisfies
`objective_value = sum(soft_constraint_totals.values())
= sum(a.penalty for a in assignments)`. -/
theorem C7_penalty_accounting (p : Problem) (out : SolverOutcome)
    (s : Session) (res : BwmIlpResult)
    (hok : (run_model p out s).2 = Except.ok res) :
    res.objective_value
        = (res.soft_constraint_totals.map (fun kv => kv.2)).sum
      ∧ (res.soft_constraint_totals.map (fun kv => kv.2)).sum
          = (res.assignments.map (fun a => a.penalty)).sum := by
  by_cases hemp : p.classes.isEmpty = true
  · rw [run_model_empty p out s hemp] at hok
    exact absurd hok (by simp)
  · have hempf : p.classes.isEmpty = false := Bool.eq_false_iff.mpr hemp
    cases hpre : precheck p with
    | some e0 =>
      rw [run_model_precheck_some p out s hempf hpre] at hok
      exact absurd hok (by simp)
    | none =>
      by_cases hst : out.status = SolverStatus.other
      · rw [run_model_nofeasible p out s hempf hpre hst] at hok
        exact absurd hok (by simp)
      · rw [run_model_solved p out s hempf hpre hst] at hok
        cases hloop : projLoop p out p.classes (deleteStage p s) []
            (fun _ => 0) with
        | mk s2 lres =>
          obtain ⟨-, -, hokinv⟩ :=
            projLoop_invariant p out p.classes (deleteStage p s) []
              (fun _ => 0) s2 lres hloop
          cases lres with
          | error e =>
            rw [finishRun_error hloop] at hok
            exact absurd hok (by simp)
          | ok AT =>
            obtain ⟨A, T⟩ := AT
            rw [finishRun_ok hloop] at hok
            have hres : res = mkResult p out.status A T :=
              (Except.ok.inj hok).symm
            obtain ⟨delta, newE, hA, -, -, -, hT, hprov⟩ := hokinv A T rfl
            rw [hA, List.nil_append] at hres
            subst hres
            refine ⟨rfl, ?_⟩
            show ((KEYS.map (fun k => (k, T k))).map (fun kv => kv.2)).sum
          = (delta.map (fun a => a.penalty)).sum
            rw [List.map_map]
            have h1 : KEYS.map ((fun kv => kv.2)
                ∘ (fun k => (k, T k))) = KEYS.map T := rfl
            rw [h1]
            have h2 : KEYS.map T
                = KEYS.map (fun k =>
                    (delta.map (fun a => keySum a.penalty_breakdown k)).sum) := by
              apply List.map_congr_left
              intro k _
              rw [hT k]
              ring
            rw [h2, sum_comm_list]
            apply congrArg
            apply List.map_congr_left
            intro a ha
            obtain ⟨c, tsI, rI, LI, -, -, -, hpen, hbd⟩ := hprov a ha
            rw [hbd]
            rw [collect_keysum p c tsI rI LI]
            exact hpen.symm

/-! ### C10: sign of the reported numbers -/

theorem weightOf_nonneg {p : Problem}
    (hw : ∀ kv ∈ p.weights, 0 ≤ kv.2) (k : String) :
    0 ≤ weightOf p k := by
  unfold weightOf
  cases h : lookupD p.weights k with
  | none => exact le_refl 0
  | some v => exact hw (k, v) (lookupD_mem h)

theorem prefScore_le_one {p : Problem}
    (hp : ∀ kv ∈ p.preferences, kv.2 ≤ 1) (l t : Nat) :
    prefScore p l t ≤ 1 := by
  unfold prefScore
  cases h : lookupD p.preferences (l, t) with
  | none => norm_num
  | some v => exact hp ((l, t), v) (lookupD_mem h)

theorem keySum_nonneg {bd : List (String × ℚ)}
    (h : ∀ kv ∈ bd, 0 ≤ kv.2) (k : String) : 0 ≤ keySum bd k := by
  unfold keySum
  apply List.sum_nonneg
  intro x hx
  obtain ⟨kv, hkv, rfl⟩ := List.mem_map.mp hx
  by_cases hk : kv.1 = k
  · rw [if_pos hk]
    exact h kv hkv
  · rw [if_neg hk]

theorem collect_values_nonneg {p : Problem} {c : ClassInfo}
    {ts : TimeslotInfo} {r : RoomInfo} {L : LecturerInfo}
    (hw : ∀ kv ∈ p.weights, 0 ≤ kv.2)
    (hp : ∀ kv ∈ p.preferences, kv.2 ≤ 1) (hcap : 0 ≤ r.capacity) :
    ∀ kv ∈ (collect_penalties p c ts r L).2, 0 ≤ kv.2 := by
  intro kv hkv
  rcases collect_mem p c ts r L kv hkv with ⟨hkv', -⟩ | ⟨hkv', -⟩ | ⟨hkv', -⟩
  · rw [hkv']
    exact prefPenalty_nonneg (weightOf_nonneg hw _) (prefScore_le_one hp _ _)
  · rw [hkv']
    show 0 ≤ weightOf p "PEAK_TIME_AVOIDANCE" * 1
    have := weightOf_nonneg hw "PEAK_TIME_AVOIDANCE"
    linarith
  · rw [hkv']
    exact utilPenalty_nonneg (weightOf_nonneg hw _) hcap

/-- C10 (amended): under nonnegative penalty weights, preference scores
at most 1 AND nonnegative room capacities, every reported number of a
successful run is nonnegative: each breakdown value, each assignment
penalty, each soft-constraint total and the objective value. -/
theorem C10_amended (p : Problem) (out : SolverOutcome) (s : Session)
    (res : BwmIlpResult) (hok : (run_model p out s).2 = Except.ok res)
    (hw : ∀ kv ∈ p.weights, 0 ≤ kv.2)
    (hp : ∀ kv ∈ p.preferences, kv.2 ≤ 1)
    (hcap : ∀ r ∈ p.rooms, 0 ≤ r.capacity) :
    (∀ a ∈ res.assignments,
        (∀ kv ∈ a.penalty_breakdown, 0 ≤ kv.2) ∧ 0 ≤ a.penalty)
      ∧ (∀ kv ∈ res.soft_constraint_totals, 0 ≤ kv.2)
      ∧ 0 ≤ res.objective_value := by
  by_cases hemp : p.classes.isEmpty = true
  · rw [run_model_empty p out s hemp] at hok
    exact absurd hok (by simp)
  · have hempf : p.classes.isEmpty = false := Bool.eq_false_iff.mpr hemp
    cases hpre : precheck p with
    | some e0 =>
      rw [run_model_precheck_some p out s hempf hpre] at hok
      exact absurd hok (by simp)
    | none =>
      by_cases hst : out.status = SolverStatus.other
      · rw [run_model_nofeasible p out s hempf hpre hst] at hok
        exact absurd hok (by simp)
      · rw [run_model_solved p out s hempf hpre hst] at hok
        cases hloop : projLoop p out p.classes (deleteStage p s) []
            (fun _ => 0) with
        | mk s2 lres =>
          obtain ⟨-, -, hokinv⟩ :=
            projLoop_invariant p out p.classes (deleteStage p s) []
              (fun _ => 0) s2 lres hloop
          cases lres with
          | error e =>
            rw [finishRun_error hloop] at hok
            exact absurd hok (by simp)
          | ok AT =>
            obtain ⟨A, T⟩ := AT
            rw [finishRun_ok hloop] at hok
            have hres : res = mkResult p out.status A T :=
              (Except.ok.inj hok).symm
            obtain ⟨delta, newE, hA, -, -, -, hT, hprov⟩ := hokinv A T rfl
            rw [hA, List.nil_append] at hres
            subst hres
            have hbd : ∀ a ∈ delta, ∀ kv ∈ a.penalty_breakdown, 0 ≤ kv.2 := by
              intro a ha
              obtain ⟨c, tsI, rI, LI, hrm, -, -, -, hbd⟩ := hprov a ha
              rw [hbd]
              exact collect_values_nonneg hw hp (hcap rI hrm)
            have hpen : ∀ a ∈ delta, 0 ≤ a.penalty := by
              intro a ha
              obtain ⟨c, tsI, rI, LI, hrm, -, -, hp1, hbd1⟩ := hprov a ha
              rw [hp1, collect_total, ← hbd1]
              apply List.sum_nonneg
              intro x hx
              obtain ⟨kv, hkv, rfl⟩ := List.mem_map.mp hx
              exact hbd a ha kv hkv
            have htot : ∀ k, 0 ≤ T k := by
              intro k
              rw [hT k]
              simp only [zero_add]
              apply List.sum_nonneg
              intro x hx
              obtain ⟨a, ha, rfl⟩ := List.mem_map.mp hx
              exact keySum_nonneg (hbd a ha) k
            refine ⟨fun a ha => ⟨hbd a ha, hpen a ha⟩, ?_, ?_⟩
            · intro kv hkv
              obtain ⟨k, -, rfl⟩ := List.mem_map.mp hkv
              exact htot k
            · show 0 ≤ ((KEYS.map (fun k => (k, T k))).map
                (fun kv => kv.2)).sum
              apply List.sum_nonneg
              intro x hx
              obtain ⟨kv, hkv, rfl⟩ := List.mem_map.mp hx
              obtain ⟨k, -, rfl⟩ := List.mem_map.mp hkv
              exact htot k

/-- Negative-capacity room: capacity -1 against effective class
capacity -3, with a positive ROOM_UTILIZATION weight. -/
def rNeg : RoomInfo :=
  { room_id := 1, room_code := "R1", capacity := -1,
    room_type := "lecture", building := "B", equipment := [] }

def cNeg : ClassInfo :=
  { class_id := 1, course_id := 1, course_code := "CS101",
    course_name := "Intro", cohort_id := "A", capacity := -3,
    session_type := "lecture", requires_lab := false,
    needs_back_to_back := false, same_room_preferred := false,
    candidate_lecturers := [1] }

def p10 : Problem :=
  { dataset_id := 1, dataset_name := "demo", classes := [cNeg],
    rooms := [rNeg], timeslots := [tW], lecturers := [LW],
    availability := [((1, 1), true)], preferences := [((1, 1), 1)],
    weights := [("ROOM_UTILIZATION", 1)], requirements := [] }

/-- C10 counterexample: all PenaltyWeight weights are nonnegative and
every preference score is at most 1, yet a successful run reports
objective value -2 (the capacity gap `max(-1 - (-3), 0) = 2` divided by
the negative capacity -1). -/
theorem C10_counterexample :
    (p10.weights.all (fun kv => decide (0 ≤ kv.2))) = true
      ∧ (p10.preferences.all (fun kv => decide (kv.2 ≤ 1))) = true
      ∧ Except.map (fun res => res.objective_value) (run_model p10 outW s0).2
          = Except.ok (-2 : ℚ) := by
  refine ⟨by with_unfolding_all decide, by with_unfolding_all decide, ?_⟩
  with_unfolding_all rfl

/-- The assignment scenario S1 produces: the unique triple, with
`ROOM_UTILIZATION = 0.35 × 10/40 = 7/80` as the only penalty
component. -/
def aW : AssignmentResult :=
  { class_id := 1, course_code := "CS101", course_name := "Intro",
    cohort_id := "A", lecturer := "Alice", lecturer_code := "L1",
    room_code := "R1", room_id := 1, building := "B", timeslot_id := 1,
    day := "MON", start_time := 8, end_time := 10, penalty := 7/80,
    penalty_breakdown := [("ROOM_UTILIZATION", 7/80)] }

/-- The result of scenario S1. -/
def resW : BwmIlpResult :=
  { dataset_id := 1, dataset_name := "demo", objective_value := 7/80,
    soft_constraint_totals := [("LECTURER_PREFERENCE", 0),
      ("ROOM_UTILIZATION", 7/80), ("PEAK_TIME_AVOIDANCE", 0)],
    assignments := [aW], solver_status := "FEASIBLE", status := "OPTIMAL",
    execution_time := 0 }

/-- Witness for `C6_persistence` on scenario S1: the stale dataset-1
row is gone, the dataset-2 row survives, and the new row matches the
returned assignment. -/
theorem C6_witness :
    ∃ newE, ((run_model pW outW sW).1).committed
        = sW.committed.filter (fun e => decide (e.dataset_id ≠ pW.dataset_id))
          ++ newE
      ∧ entriesMatch pW newE resW.assignments = true
      ∧ ∀ e ∈ newE, e.dataset_id = pW.dataset_id :=
  C6_persistence pW outW sW resW rfl (by with_unfolding_all rfl)

/-- Witness for `C7_penalty_accounting` on scenario S1. -/
theorem C7_witness :
    resW.objective_value
        = (resW.soft_constraint_totals.map (fun kv => kv.2)).sum
      ∧ (resW.soft_constraint_totals.map (fun kv => kv.2)).sum
          = (resW.assignments.map (fun a => a.penalty)).sum :=
  C7_penalty_accounting pW outW sW resW (by with_unfolding_all rfl)

/-- Witness for `C10_amended` on scenario S1. -/
theorem C10_witness :
    (∀ a ∈ resW.assignments,
        (∀ kv ∈ a.penalty_breakdown, 0 ≤ kv.2) ∧ 0 ≤ a.penalty)
      ∧ (∀ kv ∈ resW.soft_constraint_totals, 0 ≤ kv.2)
      ∧ 0 ≤ resW.objective_value :=
  C10_amended pW outW sW resW (by with_unfolding_all rfl)
    (by with_unfolding_all decide) (by with_unfolding_all decide)
    (by with_unfolding_all decide)

end BwmIlp
